import Mathlib

/-!
Verification of `robin_stocks/robinhood/export.py`.

The module under study exports completed stock, crypto and option orders to
CSV files.  We embed its pure logic shallowly:

* order records become Lean structures (loosely-typed dict fields become
  `String` fields; optional dict keys become `Option String`);
* the per-order row projection inside each export loop becomes a pure
  function from an order to the list of CSV data rows it emits;
* the pandas/numpy weighted-average aggregation over an option leg's
  executions becomes a function into `Except`, with the error cases the
  Python runtime actually raises (`KeyError` from indexing a column of an
  empty DataFrame, `ZeroDivisionError` from `np.average` when the weight
  sum is zero);
* the `pathlib` manipulations of `fix_file_extension` and
  `create_absolute_csv` become functions over a POSIX-style path model
  (a list of components plus an absolute flag), with `Path.resolve`
  modelled non-strictly (Python ≥ 3.6 default: a missing directory does
  not raise) against an explicit current working directory.

Numeric fields that the source coerces with `astype(float)` are modelled
as `ℚ`; the claims under study are about the exact arithmetic identities
of the aggregation, which the rational model represents faithfully.
-/

/-- A CSV cell: the source writes either a string taken verbatim from the
order record, or a float produced by the aggregation / the crypto fee
default. -/
inductive Cell where
  | str : String → Cell
  | num : ℚ → Cell
deriving DecidableEq, Repr

/-- One partial execution of a stock order (`order["executions"]` element):
the source reads its `timestamp`, `quantity` and `price` verbatim. -/
structure StockExecution where
  timestamp : String
  quantity : String
  price : String
deriving DecidableEq, Repr

/-- A stock order record as consumed by `export_completed_stock_orders`:
only the keys the loop reads.  `cancel` is the cancellation marker
(`None` or a cancel URL). -/
structure StockOrder where
  state : String
  cancel : Option String
  executions : List StockExecution
  instrument : String
  last_transaction_at : String
  type : String
  side : String
  fees : String
  quantity : String
  average_price : String
deriving DecidableEq, Repr

/-- A crypto order record as consumed by `export_completed_crypto_orders`.
`fees` is `none` when the dict lacks the key (the source guards the access
with `try/except KeyError`).  `executions` is present in the API record
but never read by the crypto export loop. -/
structure CryptoOrder where
  state : String
  cancel_url : Option String
  fees : Option String
  currency_pair_id : String
  last_transaction_at : String
  type : String
  side : String
  quantity : String
  average_price : String
  executions : List StockExecution
deriving DecidableEq, Repr

/-- One execution of an option leg, after the source's
`astype(float)` coercion of its `price` and `quantity` columns. -/
structure OptExec where
  price : ℚ
  quantity : ℚ
deriving DecidableEq, Repr

/-- One leg of an option order: its `side`, the option-instrument URL, and
its executions. -/
structure OptionLeg where
  side : String
  option : String
  executions : List OptExec
deriving DecidableEq, Repr

/-- An option order record as consumed by `export_completed_option_orders`. -/
structure OptionOrder where
  state : String
  chain_symbol : String
  created_at : String
  direction : String
  type : String
  opening_strategy : String
  closing_strategy : String
  processed_quantity : String
  regulatory_fees : String
  legs : List OptionLeg
deriving DecidableEq, Repr

/-- The fields of the option-instrument record fetched by
`request_get(leg["option"])` that the row uses. -/
structure InstrumentData where
  expiration_date : String
  strike_price : String
  type : String
  id : String
deriving DecidableEq, Repr

/-- Errors raised by the pandas/numpy aggregation. -/
inductive AggError where
  | keyError : String → AggError
  | zeroDivisionError : AggError
deriving DecidableEq, Repr

deriving instance DecidableEq for Except

/-- `np.average(values, weights=weights)`: `sum(v*w)/sum(w)`; numpy raises
`ZeroDivisionError("Weights sum to zero, can't be normalized")` when the
weight sum is zero. -/
def npAverage (values weights : List ℚ) : Except AggError ℚ :=
  let scl := weights.sum
  if scl = 0 then .error .zeroDivisionError
  else .ok ((List.zipWith (· * ·) values weights).sum / scl)

/-- The aggregation of `export_completed_option_orders` (lines 190–194):
`df = pd.DataFrame(executions)` followed by `df["price"]`,
`df["quantity"]` coercions, `total_quantity = df["quantity"].sum()` and
`avg_price = np.average(df["price"], weights=df["quantity"])`.
`pd.DataFrame([])` has no columns, so on an empty execution list the
column access `df["price"]` raises `KeyError("price")` before any
arithmetic happens. -/
def aggregate (execs : List OptExec) : Except AggError (ℚ × ℚ) :=
  if execs.isEmpty then .error (.keyError "price")
  else
    match npAverage (execs.map (·.price)) (execs.map (·.quantity)) with
    | .error e => .error e
    | .ok avg => .ok ((execs.map (·.quantity)).sum, avg)

/-- The data row written for a filled stock order (lines 90–101). -/
def stockFilledRow (lookup : String → String) (o : StockOrder) : List Cell :=
  [.str (lookup o.instrument), .str o.last_transaction_at, .str o.type,
   .str o.side, .str o.fees, .str o.quantity, .str o.average_price]

/-- The data row written for one execution of a cancelled stock order
(lines 76–88). -/
def stockExecRow (lookup : String → String) (o : StockOrder)
    (e : StockExecution) : List Cell :=
  [.str (lookup o.instrument), .str e.timestamp, .str o.type,
   .str o.side, .str o.fees, .str e.quantity, .str e.price]

/-- The rows emitted for one order by the loop body of
`export_completed_stock_orders` (lines 74–101): first the
cancelled-with-executions branch (one row per execution), then the
filled-with-no-cancel branch (one row); the two `if` statements are
sequential but mutually exclusive because they test the same `state`
field. -/
def stockOrderRows (lookup : String → String) (o : StockOrder) :
    List (List Cell) :=
  (if o.state = "cancelled" ∧ o.executions.length > 0 then
      o.executions.map (stockExecRow lookup o)
    else []) ++
  (if o.state = "filled" ∧ o.cancel = none then [stockFilledRow lookup o]
    else [])

/-- All data rows of `export_completed_stock_orders`, in fetch order. -/
def exportStockRows (lookup : String → String)
    (orders : List StockOrder) : List (List Cell) :=
  orders.flatMap (stockOrderRows lookup)

/-- The fee cell of a crypto row: `order["fees"]` when present, the float
`0.0` when the key is missing (`try/except KeyError`). -/
def cryptoFeeCell (o : CryptoOrder) : Cell :=
  match o.fees with
  | some f => .str f
  | none => .num 0

/-- The rows emitted for one order by the loop body of
`export_completed_crypto_orders` (lines 131–147): a single row when the
order is filled and has no cancel URL, nothing otherwise. -/
def cryptoOrderRows (lookup : String → String) (o : CryptoOrder) :
    List (List Cell) :=
  if o.state = "filled" ∧ o.cancel_url = none then
    [[.str (lookup o.currency_pair_id), .str o.last_transaction_at,
      .str o.type, .str o.side, cryptoFeeCell o, .str o.quantity,
      .str o.average_price]]
  else []

/-- All data rows of `export_completed_crypto_orders`, in fetch order. -/
def exportCryptoRows (lookup : String → String)
    (orders : List CryptoOrder) : List (List Cell) :=
  orders.flatMap (cryptoOrderRows lookup)

/-- The row written for one leg of a filled option order
(lines 186–214): the instrument lookup result, the order-level fields,
and the aggregated total quantity and weighted average price in place of
the order-level quantity and price. -/
def optionLegRow (instLookup : String → InstrumentData) (o : OptionOrder)
    (leg : OptionLeg) : Except AggError (List Cell) :=
  let inst := instLookup leg.option
  match aggregate leg.executions with
  | .error e => .error e
  | .ok (total, avg) =>
    .ok [.str o.chain_symbol, .str inst.expiration_date,
         .str inst.strike_price, .str inst.type, .str inst.id,
         .str leg.side, .str o.created_at, .str o.direction, .num total,
         .str o.type, .str o.opening_strategy, .str o.closing_strategy,
         .num avg, .str o.processed_quantity, .str o.regulatory_fees]

/-- Map a fallible row projection over a list, stopping at the first
error (the Python loop raises out of the whole export). -/
def exceptMap {α β ε : Type} (f : α → Except ε β) : List α → Except ε (List β)
  | [] => .ok []
  | a :: as =>
    match f a with
    | .error e => .error e
    | .ok b =>
      match exceptMap f as with
      | .error e => .error e
      | .ok bs => .ok (b :: bs)

/-- The rows emitted for one option order: one per leg when the order is
filled, none otherwise. -/
def optionOrderRows (instLookup : String → InstrumentData)
    (o : OptionOrder) : Except AggError (List (List Cell)) :=
  if o.state = "filled" then exceptMap (optionLegRow instLookup o) o.legs
  else .ok []

/-- All data rows of `export_completed_option_orders`, in fetch order;
an aggregation error aborts the export. -/
def exportOptionRows (instLookup : String → InstrumentData) :
    List OptionOrder → Except AggError (List (List Cell))
  | [] => .ok []
  | o :: rest =>
    match optionOrderRows instLookup o with
    | .error e => .error e
    | .ok rows =>
      match exportOptionRows instLookup rest with
      | .error e => .error e
      | .ok more => .ok (rows ++ more)

/-- A `pathlib` pure path over POSIX separators: whether it is absolute,
and its components.  Parsing drops empty components and `"."`, as
`PurePosixPath` does. -/
structure PyPath where
  absolute : Bool
  components : List String
deriving DecidableEq, Repr

/-- Split a character list on `/`. -/
def splitSlashAux : List Char → List Char → List (List Char)
  | cur, [] => [cur.reverse]
  | cur, c :: rest =>
    if c = '/' then cur.reverse :: splitSlashAux [] rest
    else splitSlashAux (c :: cur) rest

/-- `Path(s)` on POSIX: absolute iff the string starts with `/`;
components are the non-empty, non-`"."` slash-separated pieces. -/
def parsePath (s : String) : PyPath :=
  let raw := (splitSlashAux [] s.toList).map fun cs => String.mk cs
  ⟨(match s.toList with | '/' :: _ => true | _ => false),
   raw.filter fun c => !(c == "") && !(c == ".")⟩

/-- Index of the last `.` in a character list, if any. -/
def lastDotIdx : List Char → Option Nat
  | [] => none
  | c :: cs =>
    match lastDotIdx cs with
    | some i => some (i + 1)
    | none => if c = '.' then some 0 else none

/-- Start index of `PurePath.suffix` of a file name: the last `.` when it
is neither the first nor the last character, per CPython
(`0 < i < len(name) - 1`). -/
def pySuffixStart (name : String) : Option Nat :=
  match lastDotIdx name.toList with
  | some i => if 0 < i ∧ i < name.toList.length - 1 then some i else none
  | none => none

/-- `PurePath.with_suffix` applied to the final component: replace the
existing suffix, or append the new one when there is none. -/
def pyWithSuffixName (name suf : String) : String :=
  match pySuffixStart name with
  | some i => String.mk (name.toList.take i) ++ suf
  | none => name ++ suf

/-- `PurePath.with_suffix` on a path: raises `ValueError` (here `none`)
when the path has an empty name. -/
def pyWithSuffix (p : PyPath) (suf : String) : Option PyPath :=
  match p.components.getLast? with
  | none => none
  | some name =>
    some ⟨p.absolute, p.components.dropLast ++ [pyWithSuffixName name suf]⟩

/-- Eliminate `..` components left to right, as `Path.resolve` does on a
symlink-free tree (`..` at the root stays at the root). -/
def resolveFrom (acc : List String) : List String → List String
  | [] => acc
  | c :: rest =>
    if c = ".." then resolveFrom acc.dropLast rest
    else resolveFrom (acc ++ [c]) rest

/-- `Path.resolve()` with the Python ≥ 3.6 default `strict=False`: anchor
a relative path at the current working directory `cwd` (given as absolute
components) and eliminate `..`; a path whose target does not exist does
NOT raise.  The result is absolute, returned as its component list. -/
def pyResolve (cwd : List String) (p : PyPath) : List String :=
  resolveFrom (if p.absolute then [] else cwd) p.components

/-- `Path.joinpath(directory, other)`: when `other` is absolute it
replaces the whole path; otherwise its components are appended to the
directory. -/
def pyJoin (dir : List String) (other : PyPath) : PyPath :=
  if other.absolute then other else ⟨true, dir ++ other.components⟩

/-- `fix_file_extension` (lines 12–22): `Path(file_name)`,
`with_suffix(".csv")`, then `resolve()` — the resolve makes the file name
absolute relative to the current working directory, not the target
directory.  `none` models the `ValueError` that `with_suffix` raises on
an empty name. -/
def fix_file_extension (cwd : List String) (file_name : String) :
    Option PyPath :=
  (pyWithSuffix (parsePath file_name) ".csv").map fun p =>
    ⟨true, pyResolve cwd p⟩

/-- `create_absolute_csv` (lines 25–46): resolve `dir_path`; when
`file_name` is falsy (absent or empty) synthesize
`"{order_type}_orders.csv"` — the date-stamped name computed on the
previous line is a dead assignment, immediately overwritten — otherwise
apply `fix_file_extension`; finally `Path.joinpath` the directory and the
file name. -/
def create_absolute_csv (cwd : List String) (dir_path : String)
    (file_name : Option String) (order_type : String) : Option PyPath :=
  let directory := pyResolve cwd (parsePath dir_path)
  match file_name with
  | none => some (pyJoin directory (parsePath (order_type ++ "_orders.csv")))
  | some name =>
    if name = "" then
      some (pyJoin directory (parsePath (order_type ++ "_orders.csv")))
    else
      (fix_file_extension cwd name).map fun p => pyJoin directory p

/-- `beginsWith pre l` decides whether `pre` is an initial segment of
`l`; used to say a path lies inside a directory. -/
def beginsWith : List String → List String → Bool
  | [], _ => true
  | _ :: _, [] => false
  | a :: as, b :: bs => a == b && beginsWith as bs

/-- `strEndsIn s suf` decides whether the string `s` ends in `suf`. -/
def strEndsIn (s suf : String) : Bool :=
  beginsWithChar suf.toList.reverse s.toList.reverse
where
  beginsWithChar : List Char → List Char → Bool
    | [], _ => true
    | _ :: _, [] => false
    | a :: as, b :: bs => a == b && beginsWithChar as bs

/-- Whether the final path component ends in `.csv`. -/
def pathEndsCsv (p : PyPath) : Bool :=
  match p.components.getLast? with
  | some nm => strEndsIn nm ".csv"
  | none => false

/-- The observable steps of one export call, in program order. -/
inductive ExpEv where
  | resolveDir : ExpEv
  | fetchOrders : ExpEv
  | openFile : ExpEv
  | writeRows : ExpEv
deriving DecidableEq, Repr

/-- Event trace of `export_completed_stock_orders` (lines 59–61; the
crypto and option exports share the exact same prefix): first
`create_absolute_csv` resolves the directory — non-strictly, so a
missing directory raises nothing — then the orders are fetched over the
network, and only then is the file opened, which is where a missing
directory raises `FileNotFoundError`.  Returns the steps that completed
and whether the call succeeded. -/
def exportStockTrace (dirExists : Bool) : List ExpEv × Bool :=
  if dirExists then ([.resolveDir, .fetchOrders, .openFile, .writeRows], true)
  else ([.resolveDir, .fetchOrders], false)

/-! ## Helper lemmas -/

lemma zipWith_mul_proj (l : List OptExec) :
    List.zipWith (· * ·) (l.map (·.price)) (l.map (·.quantity)) =
      l.map (fun e => e.price * e.quantity) := by
  induction l with
  | nil => rfl
  | cons e es ih => simp [ih]

lemma stockOrderRows_cancelled (lk : String → String) (o : StockOrder)
    (h1 : o.state = "cancelled") (h2 : o.executions ≠ []) :
    stockOrderRows lk o = o.executions.map (stockExecRow lk o) := by
  simp [stockOrderRows, h1, h2, List.length_pos]

lemma exceptMap_append {α β ε : Type} (f : α → Except ε β)
    (l₁ l₂ : List α) (r₁ r₂ : List β)
    (h₁ : exceptMap f l₁ = .ok r₁) (h₂ : exceptMap f l₂ = .ok r₂) :
    exceptMap f (l₁ ++ l₂) = .ok (r₁ ++ r₂) := by
  induction l₁ generalizing r₁ with
  | nil =>
    simp [exceptMap] at h₁
    subst h₁
    simpa [exceptMap] using h₂
  | cons a as ih =>
    rw [List.cons_append]
    unfold exceptMap at h₁ ⊢
    cases hf : f a with
    | error e => rw [hf] at h₁; exact absurd h₁ (by simp)
    | ok b =>
      rw [hf] at h₁
      cases hm : exceptMap f as with
      | error e => rw [hm] at h₁; exact absurd h₁ (by simp)
      | ok bs =>
        rw [hm] at h₁
        cases h₁
        rw [ih bs hm]
        rfl

lemma exportOptionRows_append (iL : String → InstrumentData)
    (a b : List OptionOrder) (ra rb : List (List Cell))
    (ha : exportOptionRows iL a = .ok ra)
    (hb : exportOptionRows iL b = .ok rb) :
    exportOptionRows iL (a ++ b) = .ok (ra ++ rb) := by
  induction a generalizing ra with
  | nil =>
    simp [exportOptionRows] at ha
    subst ha
    simpa using hb
  | cons o os ih =>
    rw [List.cons_append]
    unfold exportOptionRows at ha ⊢
    cases ho : optionOrderRows iL o with
    | error e => rw [ho] at ha; exact absurd ha (by simp)
    | ok rows =>
      rw [ho] at ha
      cases hm : exportOptionRows iL os with
      | error e => rw [hm] at ha; exact absurd ha (by simp)
      | ok more =>
        rw [hm] at ha
        cases ha
        rw [ih more hm]
        simp

lemma beginsWith_self_append (l t : List String) :
    beginsWith l (l ++ t) = true := by
  induction l with
  | nil => rfl
  | cons a as ih => simp [beginsWith, ih]

lemma beginsWithChar_self_append (l t : List Char) :
    strEndsIn.beginsWithChar l (l ++ t) = true := by
  induction l with
  | nil => rfl
  | cons a as ih => simp [strEndsIn.beginsWithChar, ih]

lemma strEndsIn_append (x suf : String) : strEndsIn (x ++ suf) suf = true := by
  have hdata : (x ++ suf).toList = x.toList ++ suf.toList := by
    cases x; cases suf; rfl
  rw [strEndsIn, hdata, List.reverse_append]
  exact beginsWithChar_self_append _ _

lemma pyWithSuffixName_shape (name suf : String) :
    ∃ x, pyWithSuffixName name suf = x ++ suf := by
  unfold pyWithSuffixName
  cases pySuffixStart name <;> exact ⟨_, rfl⟩

lemma append_csv_ne_dotdot (x : String) : x ++ ".csv" ≠ ".." := by
  intro h
  have hl := congrArg String.length h
  rw [String.length_append] at hl
  have h4 : (".csv" : String).length = 4 := rfl
  have h2 : (".." : String).length = 2 := rfl
  omega

lemma resolveFrom_append_single (acc l : List String) (c : String)
    (hc : c ≠ "..") : resolveFrom acc (l ++ [c]) = resolveFrom acc l ++ [c] := by
  induction l generalizing acc with
  | nil => simp [resolveFrom, hc]
  | cons d ds ih =>
    rw [List.cons_append]
    unfold resolveFrom
    split <;> exact ih _

lemma fix_file_extension_shape (cwd : List String) (name : String)
    (p : PyPath) (h : fix_file_extension cwd name = some p) :
    p.absolute = true ∧ pathEndsCsv p = true := by
  unfold fix_file_extension at h
  cases hw : pyWithSuffix (parsePath name) ".csv" with
  | none => rw [hw] at h; exact absurd h (by simp)
  | some q =>
    rw [hw] at h
    simp only [Option.map_some'] at h
    cases h
    unfold pyWithSuffix at hw
    cases hl : (parsePath name).components.getLast? with
    | none => rw [hl] at hw; exact absurd hw (by simp)
    | some nm =>
      rw [hl] at hw
      simp only [Option.some.injEq] at hw
      obtain ⟨x, hx⟩ := pyWithSuffixName_shape nm ".csv"
      have hne : pyWithSuffixName nm ".csv" ≠ ".." := by
        rw [hx]; exact append_csv_ne_dotdot x
      refine ⟨rfl, ?_⟩
      unfold pathEndsCsv pyResolve
      rw [← hw]
      simp only
      rw [resolveFrom_append_single _ _ _ hne, List.getLast?_concat]
      rw [hx]
      exact strEndsIn_append x ".csv"

/-! ## Claim theorems -/

/-- C1 (counterexample): the aggregation does NOT return the weighted
average for every non-empty execution list — on the non-empty list
`[{price: 10, quantity: 0}]` the quantity (weight) sum is zero, so
`np.average` raises `ZeroDivisionError` instead of returning a pair. -/
theorem aggregate_zero_weight_error :
    ([(⟨10, 0⟩ : OptExec)] ≠ []) ∧
      aggregate [⟨10, 0⟩] = .error .zeroDivisionError := by
  constructor
  · simp
  · norm_num [aggregate, npAverage]

/-- C1 (amended): for every non-empty execution list whose quantities sum
to a nonzero value, the aggregation returns total quantity
`sum(quantity_i)` and weighted average price
`sum(price_i * quantity_i) / sum(quantity_i)`; in particular on
`[{price: 10, quantity: 2}, {price: 20, quantity: 2}]` it returns total
quantity `4` and weighted average price `15`. -/
theorem aggregate_nonempty_weighted (execs : List OptExec)
    (h : execs ≠ []) (h0 : (execs.map (·.quantity)).sum ≠ 0) :
    aggregate execs =
      .ok ((execs.map (·.quantity)).sum,
        (execs.map (fun e => e.price * e.quantity)).sum /
          (execs.map (·.quantity)).sum) ∧
    aggregate [⟨10, 2⟩, ⟨20, 2⟩] = .ok (4, 15) := by
  constructor
  · rw [aggregate, if_neg (by simpa [List.isEmpty_iff] using h)]
    rw [npAverage]
    simp only [if_neg h0, zipWith_mul_proj]
  · norm_num [aggregate, npAverage]

/-- C1 (witness). -/
theorem aggregate_nonempty_weighted_witness :
    (([(⟨10, 2⟩ : OptExec), ⟨20, 2⟩] : List OptExec) ≠ [] ∧
      (([(⟨10, 2⟩ : OptExec), ⟨20, 2⟩].map (·.quantity)).sum ≠ (0 : ℚ))) ∧
    aggregate [⟨10, 2⟩, ⟨20, 2⟩] = .ok (4, 15) := by
  refine ⟨⟨by simp, by norm_num⟩, ?_⟩
  exact (aggregate_nonempty_weighted [⟨10, 2⟩, ⟨20, 2⟩] (by simp)
    (by norm_num)).2

/-- C6: on the empty execution list the aggregation raises an explicit,
deterministic error: `pd.DataFrame([])` has no columns, so `df["price"]`
raises `KeyError("price")`; no `NaN` is silently produced.  (This
pre-empts the `ZeroDivisionError` that the division-by-zero discussion in
the spec anticipates.) -/
theorem aggregate_empty_error :
    aggregate [] = .error (.keyError "price") := rfl

/-- C2: in the stock and crypto exports, an order with `state == "filled"`
and a `None` cancellation marker (`cancel` for stock, `cancel_url` for
crypto) emits exactly one data row, whose cells are the order's symbol,
last-transaction timestamp, type, side, fees, quantity and average price,
in that column order. -/
theorem filled_orders_single_row (lkS lkC : String → String)
    (o : StockOrder) (c : CryptoOrder) (fv : String)
    (hs : o.state = "filled") (hc : o.cancel = none)
    (ks : c.state = "filled") (kc : c.cancel_url = none)
    (kf : c.fees = some fv) :
    stockOrderRows lkS o =
      [[.str (lkS o.instrument), .str o.last_transaction_at, .str o.type,
        .str o.side, .str o.fees, .str o.quantity, .str o.average_price]] ∧
    cryptoOrderRows lkC c =
      [[.str (lkC c.currency_pair_id), .str c.last_transaction_at,
        .str c.type, .str c.side, .str fv, .str c.quantity,
        .str c.average_price]] := by
  constructor
  · simp [stockOrderRows, stockFilledRow, hs, hc]
  · simp [cryptoOrderRows, cryptoFeeCell, ks, kc, kf]

/-- C2 (witness). -/
theorem filled_orders_single_row_witness :
    stockOrderRows (fun _ => "AAPL")
        ⟨"filled", none, [], "iurl", "2024-01-02", "market", "buy",
         "0.00", "10", "150.00"⟩ =
      [[.str "AAPL", .str "2024-01-02", .str "market", .str "buy",
        .str "0.00", .str "10", .str "150.00"]] ∧
    cryptoOrderRows (fun _ => "BTC")
        ⟨"filled", none, some "0.25", "cpid", "2024-01-03", "limit",
         "sell", "2", "40000", []⟩ =
      [[.str "BTC", .str "2024-01-03", .str "limit", .str "sell",
        .str "0.25", .str "2", .str "40000"]] :=
  filled_orders_single_row (fun _ => "AAPL") (fun _ => "BTC") _ _ "0.25"
    rfl rfl rfl rfl rfl

/-- C3: a stock order with `state == "cancelled"` and at least one
execution emits one row per execution, each using the execution's own
timestamp, quantity and price with the order's symbol, type, side and
fees; the number of rows equals the number of executions. -/
theorem cancelled_stock_rows (lk : String → String) (o : StockOrder)
    (h1 : o.state = "cancelled") (h2 : o.executions ≠ []) :
    stockOrderRows lk o =
      o.executions.map (fun e =>
        [.str (lk o.instrument), .str e.timestamp, .str o.type,
         .str o.side, .str o.fees, .str e.quantity, .str e.price]) ∧
    (stockOrderRows lk o).length = o.executions.length := by
  have h := stockOrderRows_cancelled lk o h1 h2
  constructor
  · rw [h]; rfl
  · rw [h, List.length_map]

/-- C3 (witness). -/
theorem cancelled_stock_rows_witness :
    stockOrderRows (fun _ => "TSLA")
        ⟨"cancelled", some "curl",
         [⟨"t1", "3", "100"⟩, ⟨"t2", "2", "105"⟩], "iurl", "2024-01-02",
         "limit", "buy", "0.00", "5", "101.99"⟩ =
      [[.str "TSLA", .str "t1", .str "limit", .str "buy", .str "0.00",
        .str "3", .str "100"],
       [.str "TSLA", .str "t2", .str "limit", .str "buy", .str "0.00",
        .str "2", .str "105"]] ∧
    (stockOrderRows (fun _ => "TSLA")
        ⟨"cancelled", some "curl",
         [⟨"t1", "3", "100"⟩, ⟨"t2", "2", "105"⟩], "iurl", "2024-01-02",
         "limit", "buy", "0.00", "5", "101.99"⟩).length = 2 :=
  cancelled_stock_rows (fun _ => "TSLA") _ rfl (by simp)

/-- C4: an order in any state other than "filled" (or, for stock only,
"cancelled" with at least one execution) emits zero rows; the crypto
export emits a row only when `state == "filled"` with a `None`
cancel-url, so a cancelled crypto order emits zero rows even when it has
executions. -/
theorem other_states_no_rows (lkS lkC : String → String)
    (o : StockOrder) (c : CryptoOrder) :
    (o.state ≠ "filled" → ¬(o.state = "cancelled" ∧ o.executions ≠ []) →
      stockOrderRows lkS o = []) ∧
    (c.state ≠ "filled" ∨ c.cancel_url ≠ none →
      cryptoOrderRows lkC c = []) ∧
    (c.state = "cancelled" → cryptoOrderRows lkC c = []) := by
  refine ⟨?_, ?_, ?_⟩
  · intro hf hcx
    rw [stockOrderRows,
      if_neg (fun h => hcx ⟨h.1, List.length_pos.mp h.2⟩),
      if_neg (fun h => hf h.1)]
    rfl
  · intro h
    rw [cryptoOrderRows, if_neg]
    intro hc
    rcases h with h | h
    · exact h hc.1
    · exact h hc.2
  · intro h
    rw [cryptoOrderRows,
      if_neg (fun hc => absurd (h.symm.trans hc.1) (by decide))]

/-- C4 (witness): a queued stock order and a cancelled crypto order with
a (never-read) execution both emit nothing. -/
theorem other_states_no_rows_witness :
    stockOrderRows (fun _ => "AAPL")
        ⟨"queued", none, [], "iurl", "t", "market", "buy", "0", "1",
         "10"⟩ = [] ∧
    cryptoOrderRows (fun _ => "BTC")
        ⟨"cancelled", none, some "0.1", "cpid", "t", "limit", "sell",
         "2", "40000", [⟨"t1", "1", "39000"⟩]⟩ = [] := by
  have h := other_states_no_rows (fun _ => "AAPL") (fun _ => "BTC")
    ⟨"queued", none, [], "iurl", "t", "market", "buy", "0", "1", "10"⟩
    ⟨"cancelled", none, some "0.1", "cpid", "t", "limit", "sell", "2",
     "40000", [⟨"t1", "1", "39000"⟩]⟩
  exact ⟨h.1 (by decide) (by simp), h.2.2 rfl⟩

/-- C8: a filled crypto order with no cancel URL whose record lacks the
`fees` key still emits its row, with the fee cell defaulted to the float
`0.0` rather than raising. -/
theorem crypto_missing_fees_defaults (lk : String → String)
    (c : CryptoOrder) (h1 : c.state = "filled") (h2 : c.cancel_url = none)
    (h3 : c.fees = none) :
    cryptoOrderRows lk c =
      [[.str (lk c.currency_pair_id), .str c.last_transaction_at,
        .str c.type, .str c.side, .num 0, .str c.quantity,
        .str c.average_price]] := by
  simp [cryptoOrderRows, cryptoFeeCell, h1, h2, h3]

/-- C8 (witness). -/
theorem crypto_missing_fees_defaults_witness :
    cryptoOrderRows (fun _ => "ETH")
        ⟨"filled", none, none, "cpid", "2024-02-03", "market", "buy",
         "1", "3000", []⟩ =
      [[.str "ETH", .str "2024-02-03", .str "market", .str "buy",
        .num 0, .str "1", .str "3000"]] :=
  crypto_missing_fees_defaults (fun _ => "ETH") _ rfl rfl rfl

/-- C9: a stock order with `state == "filled"` whose cancellation marker
is not `None` emits zero rows — it satisfies neither the filled branch
(which requires `cancel is None`) nor the cancelled branch (which
requires `state == "cancelled"`). -/
theorem filled_with_marker_no_rows (lk : String → String) (o : StockOrder)
    (h1 : o.state = "filled") (h2 : o.cancel ≠ none) :
    stockOrderRows lk o = [] := by
  rw [stockOrderRows,
    if_neg (fun h => absurd (h1.symm.trans h.1) (by decide)),
    if_neg (fun h => h2 h.2)]
  rfl

/-- C9 (witness). -/
theorem filled_with_marker_no_rows_witness :
    stockOrderRows (fun _ => "AAPL")
        ⟨"filled", some "curl", [⟨"t1", "1", "9"⟩], "iurl", "t",
         "market", "buy", "0", "1", "10"⟩ = [] :=
  filled_with_marker_no_rows (fun _ => "AAPL") _ rfl (by simp)

/-- C5 (counterexample): with working directory `/home`, directory
argument `/tmp` and file name `"report.txt"`, `create_absolute_csv`
returns `/home/report.csv` — `fix_file_extension` resolves the file name
against the working directory, and `Path.joinpath` discards the
directory when joined with an absolute path, so the result does NOT lie
inside the requested directory. -/
theorem create_absolute_csv_escapes_dir :
    create_absolute_csv ["home"] "/tmp" (some "report.txt") "stock" =
      some ⟨true, ["home", "report.csv"]⟩ ∧
    beginsWith (pyResolve ["home"] (parsePath "/tmp"))
      ["home", "report.csv"] = false := by decide

/-- C5 (amended): when the file name is absent, `create_absolute_csv`
returns the resolved directory joined with `"{category}_orders.csv"` (no
date stamp), a path inside the directory whose final component ends in
`".csv"`.  When a non-empty file name is given, the result is exactly
`fix_file_extension` of that name — the name with its suffix replaced or
added so it ends in `".csv"`, resolved against the current working
directory — which is absolute and ends in `".csv"` but is independent of
the directory argument and need not lie inside it. -/
theorem create_absolute_csv_spec (cwd : List String)
    (dirPath cat name : String) :
    ((cat = "stock" ∨ cat = "option" ∨ cat = "crypto") →
      create_absolute_csv cwd dirPath none cat =
        some ⟨true, pyResolve cwd (parsePath dirPath) ++
          [cat ++ "_orders.csv"]⟩ ∧
      ∀ p, create_absolute_csv cwd dirPath none cat = some p →
        beginsWith (pyResolve cwd (parsePath dirPath)) p.components =
          true ∧ pathEndsCsv p = true) ∧
    (name ≠ "" →
      create_absolute_csv cwd dirPath (some name) cat =
        fix_file_extension cwd name ∧
      ∀ p, create_absolute_csv cwd dirPath (some name) cat = some p →
        p.absolute = true ∧ pathEndsCsv p = true) := by
  constructor
  · intro hcat
    have hparse : parsePath (cat ++ "_orders.csv") =
        ⟨false, [cat ++ "_orders.csv"]⟩ := by
      rcases hcat with h | h | h <;> subst h <;> decide
    have hmain : create_absolute_csv cwd dirPath none cat =
        some ⟨true, pyResolve cwd (parsePath dirPath) ++
          [cat ++ "_orders.csv"]⟩ := by
      rw [create_absolute_csv, hparse]
      rfl
    refine ⟨hmain, ?_⟩
    intro p hp
    rw [hmain] at hp
    cases hp
    constructor
    · exact beginsWith_self_append _ _
    · rw [pathEndsCsv]
      simp only [List.getLast?_concat]
      have : cat ++ "_orders.csv" = (cat ++ "_orders") ++ ".csv" := by
        rw [String.append_assoc]; rfl
      rw [this]
      exact strEndsIn_append _ _
  · intro hname
    have hmain : create_absolute_csv cwd dirPath (some name) cat =
        fix_file_extension cwd name := by
      rw [create_absolute_csv]
      simp only [if_neg hname]
      rw [fix_file_extension]
      cases hw : pyWithSuffix (parsePath name) ".csv" with
      | none => rfl
      | some q => simp [pyJoin]
    refine ⟨hmain, ?_⟩
    intro p hp
    rw [hmain] at hp
    exact fix_file_extension_shape cwd name p hp

/-- C5 (witness). -/
theorem create_absolute_csv_spec_witness :
    create_absolute_csv ["home"] "/tmp" none "stock" =
      some ⟨true, pyResolve ["home"] (parsePath "/tmp") ++
        ["stock" ++ "_orders.csv"]⟩ ∧
    create_absolute_csv ["home"] "/tmp" (some "report.txt") "stock" =
      fix_file_extension ["home"] "report.txt" :=
  ⟨((create_absolute_csv_spec ["home"] "/tmp" "stock" "report.txt").1
      (Or.inl rfl)).1,
   ((create_absolute_csv_spec ["home"] "/tmp" "stock" "report.txt").2
      (by decide)).1⟩

/-- C7 (counterexample): when the target directory does not exist, the
export still performs the network fetch — `Path.resolve` is non-strict
and raises nothing, and the failure only surfaces at `open`, which the
source reaches after `get_all_stock_orders` — so the filesystem error is
not raised ahead of the fetch. -/
theorem fetch_happens_before_fs_error :
    (exportStockTrace false).2 = false ∧
      ExpEv.fetchOrders ∈ (exportStockTrace false).1 := by decide

/-- C7 (amended): path resolution is always the first step of an export
call, before the fetch; but a missing directory is not detected at
resolution (non-strict `Path.resolve`), so the call with a missing
directory completes the fetch and then fails when opening the file:
its trace is exactly `[resolveDir, fetchOrders]` with failure. -/
theorem export_trace_resolve_first :
    (∀ b, (exportStockTrace b).1.head? = some ExpEv.resolveDir) ∧
      exportStockTrace false =
        ([ExpEv.resolveDir, ExpEv.fetchOrders], false) := by decide

/-- Sample instrument record for concrete option-export evaluations. -/
def sampleInstData : InstrumentData := ⟨"2025-01-17", "100.0", "call", "opt-id-1"⟩

/-- Sample filled option order with one leg and one execution. -/
def sampleOptionOrder : OptionOrder :=
  ⟨"filled", "AAPL", "2024-05-01", "debit", "limit", "long_call", "",
   "2.0", "0.04", [⟨"buy", "opturl", [⟨10, 2⟩]⟩]⟩

/-- The row the option export writes for `sampleOptionOrder`. -/
def sampleOptionRow : List Cell :=
  [.str "AAPL", .str "2025-01-17", .str "100.0", .str "call",
   .str "opt-id-1", .str "buy", .str "2024-05-01", .str "debit", .num 2,
   .str "limit", .str "long_call", .str "", .num 10, .str "2.0",
   .str "0.04"]

/-- C10: every export is a deterministic function of the fetched list and
the lookup results, and it preserves order: concatenating order lists
concatenates the row lists (stock, crypto, and option when both halves
succeed); within one order, the per-execution rows of a cancelled stock
order follow the executions list, and the per-leg rows of a filled
option order are the leg projections in legs-list order, concatenation
of leg lists again concatenating the rows. -/
theorem export_rows_order_preserving (lkS lkC : String → String)
    (iL : String → InstrumentData) :
    (∀ a b : List StockOrder, exportStockRows lkS (a ++ b) =
      exportStockRows lkS a ++ exportStockRows lkS b) ∧
    (∀ a b : List CryptoOrder, exportCryptoRows lkC (a ++ b) =
      exportCryptoRows lkC a ++ exportCryptoRows lkC b) ∧
    (∀ (a b : List OptionOrder) ra rb, exportOptionRows iL a = .ok ra →
      exportOptionRows iL b = .ok rb →
      exportOptionRows iL (a ++ b) = .ok (ra ++ rb)) ∧
    (∀ o : OptionOrder, o.state = "filled" →
      optionOrderRows iL o = exceptMap (optionLegRow iL o) o.legs) ∧
    (∀ (o : OptionOrder) (l₁ l₂ : List OptionLeg) r₁ r₂,
      exceptMap (optionLegRow iL o) l₁ = .ok r₁ →
      exceptMap (optionLegRow iL o) l₂ = .ok r₂ →
      exceptMap (optionLegRow iL o) (l₁ ++ l₂) = .ok (r₁ ++ r₂)) ∧
    (∀ o : StockOrder, o.state = "cancelled" → o.executions ≠ [] →
      stockOrderRows lkS o = o.executions.map (stockExecRow lkS o)) := by
  refine ⟨?_, ?_, ?_, ?_, ?_, ?_⟩
  · intro a b; simp [exportStockRows]
  · intro a b; simp [exportCryptoRows]
  · exact fun a b ra rb => exportOptionRows_append iL a b ra rb
  · intro o h; simp [optionOrderRows, h]
  · exact fun o l₁ l₂ r₁ r₂ => exceptMap_append _ l₁ l₂ r₁ r₂
  · exact fun o => stockOrderRows_cancelled lkS o

/-- C10 (witness). -/
theorem export_rows_order_preserving_witness :
    exportOptionRows (fun _ => sampleInstData) [sampleOptionOrder] =
      .ok [sampleOptionRow] ∧
    exportOptionRows (fun _ => sampleInstData)
        ([sampleOptionOrder] ++ [sampleOptionOrder]) =
      .ok ([sampleOptionRow] ++ [sampleOptionRow]) := by
  have h : exportOptionRows (fun _ => sampleInstData) [sampleOptionOrder] =
      .ok [sampleOptionRow] := by
    norm_num [exportOptionRows, optionOrderRows, exceptMap, optionLegRow,
      aggregate, npAverage, sampleOptionOrder, sampleInstData,
      sampleOptionRow]
  exact ⟨h, (export_rows_order_preserving (fun _ => "") (fun _ => "")
    (fun _ => sampleInstData)).2.2.1 _ _ _ _ h h⟩
